import Mathlib

/-!
Verification of the git-mcp-server Operation Execution Engine.

This file shallowly embeds the CLI-provider operation orchestrators of the
repository (merge-base, clone, diff, commit, plus the git_diff tool logic)
as executable Lean functions, and proves the repository's stated properties
about them.

The external `git` process is modelled as a deterministic oracle
`Exec : args → cwd → ExecResult`; each orchestrator also returns the trace
of subprocess invocations it performed, so that "before any subprocess is
spawned" and "the unsigned command is skipped" become statements about the
trace.

JavaScript string semantics (String.prototype.split, trim, includes,
parseInt, truthiness) are modelled explicitly at the character level so
that every definition evaluates inside the kernel.
-/

namespace GitMcp

/-! ## JavaScript string primitives -/

/-- Model of JS `a.startsWith(b)` on character lists. -/
def listStartsWith : List Char → List Char → Bool
  | _, [] => true
  | [], _ :: _ => false
  | c :: cs, d :: ds => c = d && listStartsWith cs ds

/-- Fuel-driven worker for `jsSplit`: leftmost, non-overlapping matches of a
non-empty separator. Fuel is the remaining input length, so exhaustion is
unreachable. -/
def splitFuel (sep : List Char) : Nat → List Char → List Char → List (List Char)
  | 0, rest, acc => [acc.reverse ++ rest]
  | Nat.succ n, l, acc =>
    match l with
    | [] => [acc.reverse]
    | c :: cs =>
      if listStartsWith (c :: cs) sep then
        acc.reverse :: splitFuel sep n (List.drop (sep.length - 1) cs) []
      else
        splitFuel sep n cs (c :: acc)

/-- Model of JS `s.split(sep)`. For an empty separator JS splits into
single characters; for a non-empty separator it splits on each leftmost
occurrence, keeping empty segments (so `"".split(x) = [""]`). -/
def jsSplit (s sep : String) : List String :=
  match sep.toList with
  | [] => s.toList.map (fun c => String.mk [c])
  | sl => (splitFuel sl s.toList.length s.toList []).map String.mk

/-- Model of JS `s.startsWith(sub)` on strings. -/
def jsStartsWith (s sub : String) : Bool :=
  listStartsWith s.toList sub.toList

/-- Model of JS `s.trim()`: strip whitespace from both ends. -/
def jsTrim (s : String) : String :=
  String.mk (((s.toList.dropWhile Char.isWhitespace).reverse.dropWhile
    Char.isWhitespace).reverse)

/-- Model of JS `s.includes(sub)`: some suffix of `s` starts with `sub`. -/
def jsIncludes (s sub : String) : Bool :=
  (s.toList.tails.any (fun t => listStartsWith t sub.toList))

/-- Model of JS `parseInt(s, 10)`: trim, optional sign, then the longest
leading run of decimal digits; `none` stands for `NaN` (no digits). -/
def jsParseInt10 (s : String) : Option Int :=
  let t := (jsTrim s).toList
  let signed : Bool × List Char :=
    match t with
    | '-' :: r => (true, r)
    | '+' :: r => (false, r)
    | r => (false, r)
  let ds := signed.2.takeWhile Char.isDigit
  if ds.isEmpty then none
  else
    let v : Int := Int.ofNat (ds.foldl (fun a c => a * 10 + (c.toNat - 48)) 0)
    some (if signed.1 then -v else v)

/-- JS truthiness of an optional string: `undefined` and `""` are falsy. -/
def truthyStr : Option String → Bool
  | none => false
  | some s => s ≠ ""

/-- JS truthiness of an optional boolean: only `true` is truthy. -/
def truthyBool : Option Bool → Bool
  | some true => true
  | _ => false

/-- JS truthiness of an optional number: `undefined` and `0` are falsy. -/
def truthyNum : Option Nat → Bool
  | none => false
  | some n => n ≠ 0

/-! ## Error model and subprocess oracle -/

/-- JSON-RPC error codes used by the repository's `McpError`. -/
inductive JsonRpcErrorCode where
  | InvalidParams
  | InternalError
  | ServiceUnavailable
  | RequestCancelled
  deriving DecidableEq, Repr

/-- Errors thrown inside an operation: subprocess failures raised by the
executor, already-classified `McpError`s, and plain JS `Error`s. -/
inductive JsError where
  /-- Child process ran and exited non-zero: an `Error` carrying a numeric
  `code` (the exit code) and the captured stderr. -/
  | execFailure (exitCode : Nat) (stderr : String)
  /-- Child process could not be spawned (binary missing, permission). -/
  | spawnFailure (message : String)
  /-- Caller context cancelled or timed out mid-execution. -/
  | cancelled (message : String)
  /-- An already-classified `McpError` with a JSON-RPC code. -/
  | mcpError (code : JsonRpcErrorCode) (message : String)
  /-- A plain `new Error(message)`. -/
  | plainError (message : String)
  deriving DecidableEq, Repr

/-- Validation-kind errors are `McpError`s with code `InvalidParams`. -/
def isValidationError : JsError → Bool
  | .mcpError .InvalidParams _ => true
  | _ => false

/-- Decidable equality for `Except`, so concrete operation outcomes can be
checked by `decide`. -/
instance exceptDecEq {ε α : Type} [DecidableEq ε] [DecidableEq α] :
    DecidableEq (Except ε α) := fun x y =>
  match x, y with
  | Except.ok a, Except.ok b =>
      if h : a = b then Decidable.isTrue (congrArg Except.ok h)
      else Decidable.isFalse (fun hc => h (Except.ok.inj hc))
  | Except.error a, Except.error b =>
      if h : a = b then Decidable.isTrue (congrArg Except.error h)
      else Decidable.isFalse (fun hc => h (Except.error.inj hc))
  | Except.ok _, Except.error _ =>
      Decidable.isFalse (fun hc => Except.noConfusion hc)
  | Except.error _, Except.ok _ =>
      Decidable.isFalse (fun hc => Except.noConfusion hc)

/-- Captured output of a successful subprocess run. -/
structure ExecOutput where
  stdout : String
  stderr : String
  deriving DecidableEq, Repr

/-- Outcome of one subprocess invocation. -/
abbrev ExecResult := Except JsError ExecOutput

/-- One recorded subprocess invocation: the argument vector handed to the
executor and the working directory it ran in. -/
structure Invocation where
  args : List String
  cwd : String
  deriving DecidableEq, Repr

/-- The subprocess oracle: what the external tool does for a given argument
vector in a given working directory (`execGit` in the source). -/
abbrev Exec := List String → String → ExecResult

/-- Operation context handed to every orchestrator. -/
structure GitOperationContext where
  workingDirectory : String
  tenantId : String
  deriving DecidableEq, Repr

/-! ## Shared CLI-provider utilities -/

/-- Command name plus ordered argument list. -/
structure CommandSpec where
  command : String
  args : List String
  deriving DecidableEq, Repr

/-- Modelled from the spec: `buildGitCommand` (services/git/providers/cli/
utils, absent from src/). Per §4.1 it maps a command name and an ordered
argument list to the argument vector handed to the executor, each token a
discrete element, with no shell interpretation and no failure mode. -/
def buildGitCommand (spec : CommandSpec) : List String :=
  spec.command :: spec.args

/-- Modelled from the spec: `mapGitError` (services/git/providers/cli/
utils, absent from src/). Per §4.3 it passes already-classified validation
errors through unchanged, maps non-zero exits to an execution failure whose
message is the captured stderr (or a generic message when stderr is empty),
maps spawn failures to an environment error, and never swallows the
original message. -/
def mapGitError (e : JsError) (operation : String) : JsError :=
  match e with
  | .mcpError c m => .mcpError c m
  | .execFailure _ stderr =>
      .mcpError .InternalError
        (if stderr = "" then "git " ++ operation ++ " failed" else stderr)
  | .spawnFailure m => .mcpError .ServiceUnavailable m
  | .cancelled m => .mcpError .RequestCancelled m
  | .plainError m => .mcpError .InternalError m

/-! ## Merge-base orchestrator
(src/services/git/providers/cli/operations/history/merge-base.ts) -/

/-- The three merge-base modes of the provider options. -/
inductive MergeBaseMode where
  | default
  | all
  | isAncestor
  deriving DecidableEq, Repr

/-- Provider options for merge-base: a ref list and an optional mode. -/
structure GitMergeBaseOptions where
  refs : List String
  mode : Option MergeBaseMode
  deriving DecidableEq, Repr

/-- The `mergeBase` field of the result: `null`, a single hash, or the
hash list of `--all` mode. -/
inductive MergeBaseValue where
  | null
  | single (hash : String)
  | multi (hashes : List String)
  deriving DecidableEq, Repr

/-- Provider result for merge-base. -/
structure GitMergeBaseResult where
  success : Bool
  mergeBase : MergeBaseValue
  isAncestor : Option Bool
  refs : List String
  mode : MergeBaseMode
  deriving DecidableEq, Repr

/-- Model of the JS guard `error instanceof Error && 'code' in error &&
error.code === 1`: a subprocess failure whose numeric exit code is 1. -/
def isExitCodeOne : JsError → Bool
  | .execFailure 1 _ => true
  | _ => false

/-- Argument vector of the single merge-base invocation: the mode flag
(if any) followed by the refs. -/
def mergeBaseArgs (mode : MergeBaseMode) (refs : List String) : List String :=
  (match mode with
   | MergeBaseMode.default => []
   | MergeBaseMode.all => ["--all"]
   | MergeBaseMode.isAncestor => ["--is-ancestor"]) ++ refs

/-- Shallow embedding of `executeMergeBase`: validate the ref count for the
resolved mode, build the command, run it, and interpret the outcome; under
`is-ancestor`, exit code 1 is the successful "not an ancestor" outcome and
every other failure is rethrown; the outer catch maps every thrown error
through `mapGitError`. Returns the result together with the invocation
trace. -/
def executeMergeBase (options : GitMergeBaseOptions)
    (context : GitOperationContext) (exec : Exec) :
    Except JsError GitMergeBaseResult × List Invocation :=
  let mode := options.mode.getD MergeBaseMode.default
  if mode = MergeBaseMode.isAncestor ∧ options.refs.length ≠ 2 then
    (Except.error (mapGitError
      (.mcpError .InvalidParams "is-ancestor mode requires exactly 2 refs")
      "merge-base"), [])
  else if options.refs.length < 1 then
    (Except.error (mapGitError
      (.mcpError .InvalidParams "At least 1 ref required for merge-base")
      "merge-base"), [])
  else
    let cmd := buildGitCommand { command := "merge-base",
                                 args := mergeBaseArgs mode options.refs }
    let inv : Invocation := { args := cmd, cwd := context.workingDirectory }
    match exec cmd context.workingDirectory with
    | Except.ok gitOutput =>
        if mode = MergeBaseMode.isAncestor then
          (Except.ok { success := true, mergeBase := MergeBaseValue.null,
                       isAncestor := some true, refs := options.refs,
                       mode := mode }, [inv])
        else
          let output := jsTrim gitOutput.stdout
          if output = "" then
            (Except.ok { success := true, mergeBase := MergeBaseValue.null,
                         isAncestor := none, refs := options.refs,
                         mode := mode }, [inv])
          else
            let hashes := ((jsSplit output "\n").map jsTrim).filter
              (fun line => line.length > 0)
            if mode = MergeBaseMode.all then
              (Except.ok { success := true,
                           mergeBase := MergeBaseValue.multi hashes,
                           isAncestor := none, refs := options.refs,
                           mode := mode }, [inv])
            else
              (Except.ok { success := true,
                           mergeBase := (match hashes.head? with
                             | some h =>
                                 if h = "" then MergeBaseValue.null
                                 else MergeBaseValue.single h
                             | none => MergeBaseValue.null),
                           isAncestor := none, refs := options.refs,
                           mode := mode }, [inv])
    | Except.error e =>
        if mode = MergeBaseMode.isAncestor ∧ isExitCodeOne e then
          (Except.ok { success := true, mergeBase := MergeBaseValue.null,
                       isAncestor := some false, refs := options.refs,
                       mode := mode }, [inv])
        else
          (Except.error (mapGitError e "merge-base"), [inv])

/-! ## POSIX path model (node:path) and the clone orchestrator
(src/services/git/providers/cli/operations/core/clone.ts) -/

/-- Non-empty, non-`"."` components of a slash-separated path. -/
def pathComponents (p : String) : List String :=
  (jsSplit p "/").filter (fun c => c ≠ "" ∧ c ≠ ".")

/-- Resolve `".."` components against an absolute component stack (a
`".."` at the root is dropped, as node does for absolute paths). -/
def resolveDotDot (parts : List String) : List String :=
  parts.foldl (fun acc c => if c = ".." then acc.dropLast else acc ++ [c]) []

/-- Model of node `path.resolve(p)` on POSIX: an absolute `p` is
normalized; a relative `p` is first joined onto the process working
directory (which node reads implicitly and is threaded here as
`processCwd`). The output is absolute with no `"."`, `".."`, duplicate or
trailing slashes. -/
def pathResolve (processCwd p : String) : String :=
  let raw := if jsStartsWith p "/" then p else processCwd ++ "/" ++ p
  "/" ++ String.intercalate "/" (resolveDotDot (pathComponents raw))

/-- Model of node `path.dirname` on the normalized absolute paths produced
by `pathResolve`: everything up to the final component, `"/"` at the
root. -/
def pathDirname (p : String) : String :=
  match ((jsSplit p "/").filter (fun c => c ≠ "")).dropLast with
  | [] => "/"
  | ps => "/" ++ String.intercalate "/" ps

/-- Model of node `path.basename` on the normalized absolute paths
produced by `pathResolve`: the final component, `""` at the root. -/
def pathBasename (p : String) : String :=
  (((jsSplit p "/").filter (fun c => c ≠ "")).getLast?).getD ""

/-- Provider options for clone. -/
structure GitCloneOptions where
  remoteUrl : String
  localPath : String
  branch : Option String
  depth : Option Nat
  bare : Option Bool
  mirror : Option Bool
  recurseSubmodules : Option Bool
  deriving DecidableEq, Repr

/-- Provider result for clone. -/
structure GitCloneResult where
  success : Bool
  localPath : String
  remoteUrl : String
  branch : String
  deriving DecidableEq, Repr

/-- Argument list built by `executeClone` before the command name is
prepended: remote URL, destination directory name, then the optional
flags in source order (each gated by JS truthiness of its option). -/
def cloneArgs (options : GitCloneOptions) (targetDirName : String) :
    List String :=
  [options.remoteUrl, targetDirName]
    ++ (if truthyStr options.branch then
          ["--branch", options.branch.getD ""] else [])
    ++ (if truthyNum options.depth then
          ["--depth", toString (options.depth.getD 0)] else [])
    ++ (if truthyBool options.bare then ["--bare"] else [])
    ++ (if truthyBool options.mirror then ["--mirror"] else [])
    ++ (if truthyBool options.recurseSubmodules then
          ["--recurse-submodules"] else [])

/-- Shallow embedding of `executeClone`: resolve `localPath` to an
absolute path, run `git clone` from its parent directory with the final
path segment as the destination argument, and on success report the
resolved absolute path; `options.branch || 'main'` supplies the reported
branch. Errors are mapped through `mapGitError`. -/
def executeClone (options : GitCloneOptions) (_context : GitOperationContext)
    (processCwd : String) (exec : Exec) :
    Except JsError GitCloneResult × List Invocation :=
  let absoluteLocalPath := pathResolve processCwd options.localPath
  let parentDir := pathDirname absoluteLocalPath
  let targetDirName := pathBasename absoluteLocalPath
  let cmd := buildGitCommand { command := "clone",
                               args := cloneArgs options targetDirName }
  let inv : Invocation := { args := cmd, cwd := parentDir }
  match exec cmd parentDir with
  | Except.ok _ =>
      (Except.ok { success := true, localPath := absoluteLocalPath,
                   remoteUrl := options.remoteUrl,
                   branch := (match options.branch with
                     | some b => if b = "" then "main" else b
                     | none => "main") }, [inv])
  | Except.error e => (Except.error (mapGitError e "clone"), [inv])

/-! ## Diff orchestrator
(src/services/git/providers/cli/operations/commits/diff.ts, provided as
src/unnamed/part_001) and the git_diff tool logic
(src/mcp-server/tools/definitions/git-diff.tool.ts) -/

/-- Aggregate diffstat produced by the diffstat parser. -/
structure DiffStat where
  files : List String
  totalAdditions : Nat
  totalDeletions : Nat
  deriving DecidableEq, Repr

/-- Modelled from the spec: `parseGitDiffStat` (utils, absent from src/).
Per §4.4 it consumes the numeric per-file summary lines, collecting the
file names, summing insertions and deletions, tolerating an empty summary,
and counting binary-file marker lines in `files` but not in the numeric
totals. -/
def parseGitDiffStat (out : String) : DiffStat :=
  (jsSplit out "\n").foldl
    (fun acc line =>
      match jsSplit line " | " with
      | [namePart, statPart] =>
          let name := jsTrim namePart
          if name = "" then acc
          else if jsStartsWith (jsTrim statPart) "Bin" then
            { acc with files := acc.files ++ [name] }
          else
            { files := acc.files ++ [name],
              totalAdditions :=
                acc.totalAdditions + statPart.toList.count '+',
              totalDeletions :=
                acc.totalDeletions + statPart.toList.count '-' }
      | _ => acc)
    { files := [], totalAdditions := 0, totalDeletions := 0 }

/-- Provider options for diff. -/
structure GitDiffOptions where
  source : Option String
  target : Option String
  path : Option String
  staged : Option Bool
  includeUntracked : Option Bool
  stat : Option Bool
  nameOnly : Option Bool
  unified : Option Nat
  deriving DecidableEq, Repr

/-- Provider result for diff. -/
structure GitDiffResult where
  diff : String
  filesChanged : Nat
  insertions : Nat
  deletions : Nat
  binary : Bool
  deriving DecidableEq, Repr

/-- Argument list built by `executeDiff` before the command name is
prepended, in source order; each piece is gated by JS truthiness of its
option, and `--unified` is suppressed when `nameOnly` is set. -/
def diffArgs (options : GitDiffOptions) : List String :=
  (if truthyBool options.staged then ["--cached"] else [])
    ++ (if truthyBool options.nameOnly then ["--name-only"] else [])
    ++ (match options.source with
        | some s => if s ≠ "" then [s] else []
        | none => [])
    ++ (match options.target with
        | some t => if t ≠ "" then [t] else []
        | none => [])
    ++ (match options.path with
        | some p => if p ≠ "" then ["--", p] else []
        | none => [])
    ++ (if truthyNum options.unified ∧ ¬ truthyBool options.nameOnly then
          ["--unified=" ++ toString (options.unified.getD 0)] else [])

/-- Shallow embedding of `executeDiff`: run `git diff` with the built
arguments for the diff body, then a second `git diff --stat` invocation
with `--name-only` filtered out, parse the diffstat, and detect binary
files from the body. Errors are mapped through `mapGitError`. -/
def executeDiff (options : GitDiffOptions) (context : GitOperationContext)
    (exec : Exec) : Except JsError GitDiffResult × List Invocation :=
  let args := diffArgs options
  let diffCmd := buildGitCommand { command := "diff", args := args }
  let inv1 : Invocation := { args := diffCmd,
                             cwd := context.workingDirectory }
  match exec diffCmd context.workingDirectory with
  | Except.error e => (Except.error (mapGitError e "diff"), [inv1])
  | Except.ok diffResult =>
      let statCmd := buildGitCommand
        { command := "diff",
          args := (args.filter (fun a => a ≠ "--name-only")) ++ ["--stat"] }
      let inv2 : Invocation := { args := statCmd,
                                 cwd := context.workingDirectory }
      match exec statCmd context.workingDirectory with
      | Except.error e => (Except.error (mapGitError e "diff"), [inv1, inv2])
      | Except.ok statResult =>
          let stats := parseGitDiffStat statResult.stdout
          let hasBinary := jsIncludes diffResult.stdout "Binary files"
          (Except.ok { diff := diffResult.stdout,
                       filesChanged := stats.files.length,
                       insertions := stats.totalAdditions,
                       deletions := stats.totalDeletions,
                       binary := hasBinary }, [inv1, inv2])

/-- Input of the git_diff tool after schema validation: `staged`,
`includeUntracked`, `nameOnly`, `stat` and `contextLines` have schema
defaults and are always present; `target`, `source` and `paths` are
optional. -/
structure DiffToolInput where
  target : Option String
  source : Option String
  paths : Option (List String)
  staged : Bool
  includeUntracked : Bool
  nameOnly : Bool
  stat : Bool
  contextLines : Nat
  deriving DecidableEq, Repr

/-- Output of the git_diff tool. -/
structure DiffToolOutput where
  success : Bool
  diff : String
  filesChanged : Nat
  insertions : Nat
  deletions : Nat
  deriving DecidableEq, Repr

/-- Provider diff options assembled by `gitDiffLogic` before the `paths`
handling. -/
def diffToolBaseOptions (input : DiffToolInput) : GitDiffOptions :=
  { source := input.source, target := input.target, path := none,
    staged := some input.staged,
    includeUntracked := some input.includeUntracked,
    stat := some input.stat, nameOnly := some input.nameOnly,
    unified := some input.contextLines }

/-- Shallow embedding of `gitDiffLogic`: build the provider options, set
`path` from a single-element `paths`, throw a plain `Error` when more than
one path is given (before the provider is ever called), and otherwise call
the provider and repackage its result. -/
def gitDiffLogic (input : DiffToolInput) (targetPath : String)
    (tenantId : String) (exec : Exec) :
    Except JsError DiffToolOutput × List Invocation :=
  let base := diffToolBaseOptions input
  let withPath : Except JsError GitDiffOptions :=
    match input.paths with
    | some ps =>
        if ps.length > 0 then
          if ps.length > 1 then
            Except.error (.plainError
              "Multiple paths not yet supported - please specify a single path")
          else Except.ok { base with path := ps.head? }
        else Except.ok base
    | none => Except.ok base
  match withPath with
  | Except.error e => (Except.error e, [])
  | Except.ok diffOptions =>
      let ctx : GitOperationContext :=
        { workingDirectory := targetPath, tenantId := tenantId }
      match executeDiff diffOptions ctx exec with
      | (Except.error e, tr) => (Except.error e, tr)
      | (Except.ok result, tr) =>
          (Except.ok { success := true, diff := result.diff,
                       filesChanged := result.filesChanged,
                       insertions := result.insertions,
                       deletions := result.deletions }, tr)

/-- Modelled from the spec: `GIT_FIELD_DELIMITER` (utils, absent from
src/), a low-collision sentinel separating fields of one metadata record
(§6). The concrete value is not visible in src/; the unit-separator
control character stands in for it. -/
def GIT_FIELD_DELIMITER : String := "\x1f"

/-- Modelled from the spec: `GIT_RECORD_DELIMITER` (utils, absent from
src/), a low-collision sentinel separating the metadata record from the
file list (§6). The concrete value is not visible in src/; the
record-separator control character stands in for it. -/
def GIT_RECORD_DELIMITER : String := "\x1e"

/-! ## Commit orchestrator
(src/services/git/providers/cli/operations/commits/commit.ts, provided
inside src/src/mcp-server/tools/definitions/git-merge-base.tool.ts) -/

/-- Commit author option: name and e-mail. -/
structure GitAuthor where
  name : String
  email : String
  deriving DecidableEq, Repr

/-- Provider options for commit. -/
structure GitCommitOptions where
  message : String
  amend : Option Bool
  allowEmpty : Option Bool
  noVerify : Option Bool
  author : Option GitAuthor
  sign : Option Bool
  forceUnsignedOnFailure : Option Bool
  deriving DecidableEq, Repr

/-- Provider result for commit; `timestamp` is `none` when the parsed
epoch value is `NaN`. -/
structure GitCommitResult where
  success : Bool
  commitHash : String
  message : String
  author : String
  timestamp : Option Int
  filesChanged : List String
  deriving DecidableEq, Repr

/-- Base commit argument list built from the options (before the signing
flag is appended), in source order. -/
def commitArgs (options : GitCommitOptions) : List String :=
  ["-m", options.message]
    ++ (if truthyBool options.amend then ["--amend"] else [])
    ++ (if truthyBool options.allowEmpty then ["--allow-empty"] else [])
    ++ (if truthyBool options.noVerify then ["--no-verify"] else [])
    ++ (match options.author with
        | some a => ["--author=" ++ a.name ++ " <" ++ a.email ++ ">"]
        | none => [])

/-- Argument vector of the signed commit attempt. -/
def signedCommitCmd (options : GitCommitOptions) : List String :=
  buildGitCommand { command := "commit",
                    args := commitArgs options ++ ["--gpg-sign"] }

/-- Argument vector of the unsigned commit attempt (signing explicitly
disabled). -/
def unsignedCommitCmd (options : GitCommitOptions) : List String :=
  buildGitCommand { command := "commit",
                    args := commitArgs options ++ ["--no-gpg-sign"] }

/-- Argument vector of the hash read-back invocation. -/
def revParseHeadCmd : List String :=
  buildGitCommand { command := "rev-parse", args := ["HEAD"] }

/-- Argument vector of the metadata read-back invocation for a given
commit hash. -/
def showMetaCmd (commitHash : String) : List String :=
  buildGitCommand
    { command := "show",
      args := ["--format=%an" ++ GIT_FIELD_DELIMITER ++ "%at"
                 ++ GIT_RECORD_DELIMITER,
               "--name-only", commitHash] }

/-- Parsed commit metadata. -/
structure CommitMeta where
  authorName : String
  timestamp : Option Int
  filesChanged : List String
  deriving DecidableEq, Repr

/-- Shallow embedding of the metadata decoding in `executeCommit`: split
the `git show` output on the record delimiter, split the first segment on
the field delimiter, default the author name to `""`, default the
timestamp text to `"0"` before `parseInt`, and default the file list to
empty; non-empty lines of the second segment are the changed files. -/
def parseCommitShow (fieldDelim recordDelim stdout : String) : CommitMeta :=
  let parts := jsSplit stdout recordDelim
  let metaParts :=
    match parts with
    | p :: _ => jsSplit p fieldDelim
    | [] => []
  let authorName := match metaParts with | a :: _ => a | [] => ""
  let tsStr :=
    match metaParts with
    | _ :: t :: _ => if t = "" then "0" else t
    | _ => "0"
  { authorName := authorName, timestamp := jsParseInt10 tsStr,
    filesChanged :=
      match parts with
      | _ :: f :: _ => (jsSplit f "\n").filter (fun s => jsTrim s ≠ "")
      | _ => [] }

/-- Read-back phase of `executeCommit`: resolve the new commit hash with
`git rev-parse HEAD`, then re-query metadata with `git show`, and build
the successful result. `trace` is the invocation trace accumulated by the
write phase. -/
def commitReadBack (options : GitCommitOptions)
    (context : GitOperationContext) (exec : Exec)
    (trace : List Invocation) :
    Except JsError GitCommitResult × List Invocation :=
  match exec revParseHeadCmd context.workingDirectory with
  | Except.error e =>
      (Except.error e,
       trace ++ [{ args := revParseHeadCmd,
                   cwd := context.workingDirectory }])
  | Except.ok hashResult =>
      match exec (showMetaCmd (jsTrim hashResult.stdout))
          context.workingDirectory with
      | Except.error e =>
          (Except.error e,
           trace ++ [{ args := revParseHeadCmd,
                       cwd := context.workingDirectory },
                     { args := showMetaCmd (jsTrim hashResult.stdout),
                       cwd := context.workingDirectory }])
      | Except.ok showResult =>
          (Except.ok { success := true,
                       commitHash := jsTrim hashResult.stdout,
                       message := options.message,
                       author := (parseCommitShow GIT_FIELD_DELIMITER
                         GIT_RECORD_DELIMITER showResult.stdout).authorName,
                       timestamp := (parseCommitShow GIT_FIELD_DELIMITER
                         GIT_RECORD_DELIMITER showResult.stdout).timestamp,
                       filesChanged := (parseCommitShow GIT_FIELD_DELIMITER
                         GIT_RECORD_DELIMITER showResult.stdout).filesChanged },
           trace ++ [{ args := revParseHeadCmd,
                       cwd := context.workingDirectory },
                     { args := showMetaCmd (jsTrim hashResult.stdout),
                       cwd := context.workingDirectory }])

/-- Write phase and control flow of `executeCommit`, before the outer
error mapping. `signDefault` is the process-wide default signing policy:
`options.sign ?? shouldSignCommits()` becomes `options.sign.getD
signDefault` (`shouldSignCommits` reads the `GIT_SIGN_COMMITS`
configuration and is absent from src/; per the spec it is a read-only
process-wide default threaded in here as a parameter). -/
def executeCommitRaw (options : GitCommitOptions) (signDefault : Bool)
    (context : GitOperationContext) (exec : Exec) :
    Except JsError GitCommitResult × List Invocation :=
  if options.sign.getD signDefault then
    match exec (signedCommitCmd options) context.workingDirectory with
    | Except.ok _ =>
        commitReadBack options context exec
          [{ args := signedCommitCmd options,
             cwd := context.workingDirectory }]
    | Except.error e =>
        if truthyBool options.forceUnsignedOnFailure then
          match exec (unsignedCommitCmd options) context.workingDirectory with
          | Except.ok _ =>
              commitReadBack options context exec
                [{ args := signedCommitCmd options,
                   cwd := context.workingDirectory },
                 { args := unsignedCommitCmd options,
                   cwd := context.workingDirectory }]
          | Except.error e2 =>
              (Except.error e2,
               [{ args := signedCommitCmd options,
                  cwd := context.workingDirectory },
                { args := unsignedCommitCmd options,
                  cwd := context.workingDirectory }])
        else
          (Except.error e,
           [{ args := signedCommitCmd options,
              cwd := context.workingDirectory }])
  else
    match exec (unsignedCommitCmd options) context.workingDirectory with
    | Except.ok _ =>
        commitReadBack options context exec
          [{ args := unsignedCommitCmd options,
             cwd := context.workingDirectory }]
    | Except.error e2 =>
        (Except.error e2,
         [{ args := unsignedCommitCmd options,
            cwd := context.workingDirectory }])

/-- Shallow embedding of `executeCommit`: the write/read-back pipeline of
`executeCommitRaw` with every thrown error mapped through `mapGitError`
by the outer catch. -/
def executeCommit (options : GitCommitOptions) (signDefault : Bool)
    (context : GitOperationContext) (exec : Exec) :
    Except JsError GitCommitResult × List Invocation :=
  match executeCommitRaw options signDefault context exec with
  | (Except.error e, tr) => (Except.error (mapGitError e "commit"), tr)
  | ok => ok

/-! ## Helper definitions for the verified properties -/

/-- A subprocess invocation is a terminal write attempt exactly when it
runs the `commit` subcommand. -/
def isCommitWrite (inv : Invocation) : Bool :=
  inv.args.head? = some "commit"

/-- Whether the oracle reports success for a recorded invocation (the
oracle is a function, so replaying an invocation yields the outcome it had
during the run). -/
def attemptSucceeded (exec : Exec) (inv : Invocation) : Bool :=
  match exec inv.args inv.cwd with
  | Except.ok _ => true
  | Except.error _ => false

/-- Number of successful terminal write attempts in a trace. -/
def successfulWriteCount (exec : Exec) (trace : List Invocation) : Nat :=
  (trace.filter (fun inv => isCommitWrite inv && attemptSucceeded exec inv)).length

/-- The argument vector of the single merge-base invocation in
`is-ancestor` mode. -/
def mergeBaseIsAncestorCmd (refs : List String) : List String :=
  buildGitCommand { command := "merge-base",
                    args := mergeBaseArgs MergeBaseMode.isAncestor refs }

/-- The argument vector of the single clone invocation. -/
def cloneCmd (options : GitCloneOptions) (processCwd : String) : List String :=
  buildGitCommand { command := "clone",
                    args := cloneArgs options
                      (pathBasename (pathResolve processCwd options.localPath)) }

/-- The working directory of the clone invocation: the parent of the
resolved target path. -/
def cloneParentDir (options : GitCloneOptions) (processCwd : String) : String :=
  pathDirname (pathResolve processCwd options.localPath)

/-- The recorded clone invocation. -/
def cloneInv (options : GitCloneOptions) (processCwd : String) : Invocation :=
  { args := cloneCmd options processCwd,
    cwd := cloneParentDir options processCwd }

/-- Unfolding equation for `executeClone`: one invocation from the parent
directory, with the resolved absolute path in the successful result. -/
theorem executeClone_eq (options : GitCloneOptions)
    (context : GitOperationContext) (processCwd : String) (exec : Exec) :
    executeClone options context processCwd exec =
      match exec (cloneCmd options processCwd)
          (cloneParentDir options processCwd) with
      | Except.ok _ =>
          (Except.ok { success := true,
                       localPath := pathResolve processCwd options.localPath,
                       remoteUrl := options.remoteUrl,
                       branch := (match options.branch with
                         | some b => if b = "" then "main" else b
                         | none => "main") }, [cloneInv options processCwd])
      | Except.error e =>
          (Except.error (mapGitError e "clone"),
           [cloneInv options processCwd]) := rfl

/-- The read-back phase only appends read-only invocations (`rev-parse`,
`show`) to the trace; none of them is a terminal write attempt. -/
theorem commitReadBack_trace (options : GitCommitOptions)
    (context : GitOperationContext) (exec : Exec) (trace : List Invocation) :
    ∃ suffix, (commitReadBack options context exec trace).2 = trace ++ suffix ∧
      ∀ inv ∈ suffix, isCommitWrite inv = false := by
  unfold commitReadBack
  cases h1 : exec revParseHeadCmd context.workingDirectory with
  | error e =>
      refine ⟨[{ args := revParseHeadCmd, cwd := context.workingDirectory }],
        rfl, ?_⟩
      intro inv hinv
      simp only [List.mem_singleton] at hinv
      subst hinv
      rfl
  | ok hashResult =>
      dsimp only
      cases h2 : exec (showMetaCmd (jsTrim hashResult.stdout))
          context.workingDirectory with
      | error e =>
          refine ⟨[{ args := revParseHeadCmd, cwd := context.workingDirectory },
                   { args := showMetaCmd (jsTrim hashResult.stdout),
                     cwd := context.workingDirectory }], rfl, ?_⟩
          intro inv hinv
          simp only [List.mem_cons, List.not_mem_nil, or_false] at hinv
          rcases hinv with h | h
          · subst h; rfl
          · subst h; rfl
      | ok showResult =>
          refine ⟨[{ args := revParseHeadCmd, cwd := context.workingDirectory },
                   { args := showMetaCmd (jsTrim hashResult.stdout),
                     cwd := context.workingDirectory }], rfl, ?_⟩
          intro inv hinv
          simp only [List.mem_cons, List.not_mem_nil, or_false] at hinv
          rcases hinv with h | h
          · subst h; rfl
          · subst h; rfl

/-- Appending invocations that are not write attempts does not change the
successful-write count. -/
theorem successfulWriteCount_append (exec : Exec) (tr suffix : List Invocation)
    (h : ∀ inv ∈ suffix, isCommitWrite inv = false) :
    successfulWriteCount exec (tr ++ suffix) = successfulWriteCount exec tr := by
  unfold successfulWriteCount
  rw [List.filter_append]
  have hnil : suffix.filter
      (fun inv => isCommitWrite inv && attemptSucceeded exec inv) = [] := by
    rw [List.filter_eq_nil_iff]
    intro a ha
    simp [h a ha]
  simp [hnil]

/-- The read-back phase preserves the successful-write count of the
write-phase trace. -/
theorem commitReadBack_count (options : GitCommitOptions)
    (context : GitOperationContext) (exec : Exec) (trace : List Invocation) :
    successfulWriteCount exec (commitReadBack options context exec trace).2
      = successfulWriteCount exec trace := by
  obtain ⟨suffix, heq, hw⟩ := commitReadBack_trace options context exec trace
  rw [heq, successfulWriteCount_append exec trace suffix hw]

/-- The outer error mapping of `executeCommit` does not change the
invocation trace. -/
theorem executeCommit_trace (options : GitCommitOptions) (signDefault : Bool)
    (context : GitOperationContext) (exec : Exec) :
    (executeCommit options signDefault context exec).2
      = (executeCommitRaw options signDefault context exec).2 := by
  unfold executeCommit
  rcases executeCommitRaw options signDefault context exec with ⟨r, tr⟩
  cases r <;> rfl

/-- The outcome of `executeCommit` is the raw outcome with errors mapped
through `mapGitError`. -/
theorem executeCommit_fst (options : GitCommitOptions) (signDefault : Bool)
    (context : GitOperationContext) (exec : Exec) :
    (executeCommit options signDefault context exec).1 =
      match (executeCommitRaw options signDefault context exec).1 with
      | Except.error e => Except.error (mapGitError e "commit")
      | Except.ok v => Except.ok v := by
  unfold executeCommit
  rcases executeCommitRaw options signDefault context exec with ⟨r, tr⟩
  cases r <;> rfl

/-- The signed and unsigned commit commands are distinct (they end in
different signing flags). -/
theorem signedCommitCmd_ne (options : GitCommitOptions) :
    signedCommitCmd options ≠ unsignedCommitCmd options := by
  intro h
  have h2 := congrArg List.getLast? h
  simp only [signedCommitCmd, unsignedCommitCmd, buildGitCommand] at h2
  rw [← List.cons_append, ← List.cons_append, List.getLast?_concat,
    List.getLast?_concat] at h2
  simp at h2

/-- Oracle that answers every invocation with empty output. -/
def execOkEmpty : Exec := fun _ _ => Except.ok { stdout := "", stderr := "" }

/-- Oracle whose answer is irrelevant: used where the operation must fail
before any subprocess runs. -/
def execNeverRuns : Exec := fun _ _ =>
  Except.error (JsError.spawnFailure "never reached")

/-- Oracle for the ancestry check answering "not an ancestor" (exit 1). -/
def execNotAncestor : Exec := fun _ _ =>
  Except.error (JsError.execFailure 1 "")

/-- Oracle that fails every signed commit with a GPG error and answers
everything else with empty output. -/
def execSignFails : Exec := fun args _ =>
  if args.contains "--gpg-sign" then
    Except.error (JsError.execFailure 1 "gpg: signing failed")
  else Except.ok { stdout := "", stderr := "" }

/-- Oracle where the signed commit fails, the unsigned commit succeeds and
the hash read-back fails. -/
def execSignFailsReadBackFails : Exec := fun args _ =>
  if args.head? = some "rev-parse" then
    Except.error (JsError.execFailure 128 "boom")
  else if args.contains "--no-gpg-sign" then
    Except.ok { stdout := "", stderr := "" }
  else Except.error (JsError.execFailure 1 "gpg: signing failed")

/-- Sample operation context used by concrete witnesses. -/
def sampleContext : GitOperationContext :=
  { workingDirectory := "/repo", tenantId := "default-tenant" }

/-! ## Verified properties -/

/-- Claim C1: for every mergeBase call with mode `is-ancestor` and exactly
two refs, an exit code 1 of the external tool yields the successful result
`success = true, isAncestor = false, mergeBase = null` and no error is
thrown, while any other non-zero exit under this mode is propagated as a
failure mapped through `mapGitError`. -/
theorem mergeBase_isAncestor_exit_one
    (refs : List String) (context : GitOperationContext) (exec : Exec)
    (h2 : refs.length = 2) :
    (∀ stderr,
        exec (mergeBaseIsAncestorCmd refs) context.workingDirectory
          = Except.error (JsError.execFailure 1 stderr) →
        executeMergeBase { refs := refs, mode := some MergeBaseMode.isAncestor }
          context exec =
        (Except.ok { success := true, mergeBase := MergeBaseValue.null,
                     isAncestor := some false, refs := refs,
                     mode := MergeBaseMode.isAncestor },
         [{ args := mergeBaseIsAncestorCmd refs,
            cwd := context.workingDirectory }])) ∧
    (∀ exitCode stderr, exitCode ≠ 1 →
        exec (mergeBaseIsAncestorCmd refs) context.workingDirectory
          = Except.error (JsError.execFailure exitCode stderr) →
        (executeMergeBase { refs := refs, mode := some MergeBaseMode.isAncestor }
          context exec).1
          = Except.error
              (mapGitError (JsError.execFailure exitCode stderr)
                "merge-base")) := by
  constructor
  · intro stderr hx
    simp [executeMergeBase, h2, mergeBaseIsAncestorCmd] at hx ⊢
    simp [hx, isExitCodeOne]
  · intro exitCode stderr hcode hx
    simp [executeMergeBase, h2, mergeBaseIsAncestorCmd] at hx ⊢
    simp [hx, isExitCodeOne]
    cases exitCode with
    | zero => simp
    | succ n =>
        cases n with
        | zero => exact absurd rfl hcode
        | succ m => simp

/-- Witness for C1: with refs `["feature", "main"]` and an oracle
answering exit code 1, the call returns the successful negative ancestry
result. -/
theorem mergeBase_isAncestor_exit_one_witness :
    executeMergeBase
      { refs := ["feature", "main"], mode := some MergeBaseMode.isAncestor }
      sampleContext execNotAncestor
      = (Except.ok { success := true, mergeBase := MergeBaseValue.null,
                     isAncestor := some false, refs := ["feature", "main"],
                     mode := MergeBaseMode.isAncestor },
         [{ args := mergeBaseIsAncestorCmd ["feature", "main"],
            cwd := "/repo" }]) :=
  (mergeBase_isAncestor_exit_one ["feature", "main"] sampleContext
    execNotAncestor rfl).1 "" rfl

/-- Claim C7: for every mergeBase call, the ref-count preconditions (two
refs in `is-ancestor` mode, at least one ref otherwise) are checked before
any command is built; a violation yields a validation-kind error with an
empty invocation trace, so no subprocess is ever executed. -/
theorem mergeBase_ref_count_validation (options : GitMergeBaseOptions)
    (context : GitOperationContext) (exec : Exec)
    (h : (options.mode.getD MergeBaseMode.default = MergeBaseMode.isAncestor ∧
            options.refs.length ≠ 2) ∨ options.refs.length < 1) :
    (executeMergeBase options context exec).2 = [] ∧
    ∃ e, (executeMergeBase options context exec).1 = Except.error e ∧
      isValidationError e = true := by
  by_cases hA : options.mode.getD MergeBaseMode.default
      = MergeBaseMode.isAncestor ∧ options.refs.length ≠ 2
  · refine ⟨?_, JsError.mcpError JsonRpcErrorCode.InvalidParams
      "is-ancestor mode requires exactly 2 refs", ?_, rfl⟩ <;>
      simp [executeMergeBase, hA, mapGitError]
  · have hB : options.refs.length < 1 := by tauto
    refine ⟨?_, JsError.mcpError JsonRpcErrorCode.InvalidParams
      "At least 1 ref required for merge-base", ?_, rfl⟩ <;>
      simp [executeMergeBase, hA, hB, mapGitError]

/-- Witness for C7: an `is-ancestor` call with a single ref fails with a
validation-kind error and an empty invocation trace. -/
theorem mergeBase_ref_count_validation_witness :
    (executeMergeBase { refs := ["a"], mode := some MergeBaseMode.isAncestor }
        sampleContext execNeverRuns).2 = [] ∧
    ∃ e, (executeMergeBase
        { refs := ["a"], mode := some MergeBaseMode.isAncestor }
        sampleContext execNeverRuns).1 = Except.error e ∧
      isValidationError e = true :=
  mergeBase_ref_count_validation _ _ _ (Or.inl (by decide))

/-- Claim C5: every clone call performs its single invocation with working
directory equal to the parent of the resolved absolute localPath, passes
the target's final path segment as the destination argument (right after
the remote URL), and on success the result carries the resolved absolute
localPath. -/
theorem clone_parent_cwd_and_destination (options : GitCloneOptions)
    (context : GitOperationContext) (processCwd : String) (exec : Exec) :
    ((executeClone options context processCwd exec).2
        = [cloneInv options processCwd] ∧
      (cloneInv options processCwd).cwd
        = pathDirname (pathResolve processCwd options.localPath) ∧
      (cloneInv options processCwd).args.take 3
        = ["clone", options.remoteUrl,
           pathBasename (pathResolve processCwd options.localPath)]) ∧
    (∀ r, (executeClone options context processCwd exec).1 = Except.ok r →
       r.localPath = pathResolve processCwd options.localPath) := by
  have htake : (cloneInv options processCwd).args.take 3
      = ["clone", options.remoteUrl,
         pathBasename (pathResolve processCwd options.localPath)] := by
    simp only [cloneInv, cloneCmd, buildGitCommand, cloneArgs,
      List.cons_append, List.take]
  refine ⟨⟨?_, rfl, htake⟩, ?_⟩
  · rw [executeClone_eq]
    cases hx : exec (cloneCmd options processCwd)
        (cloneParentDir options processCwd) with
    | ok out => rfl
    | error e => rfl
  · rw [executeClone_eq]
    cases hx : exec (cloneCmd options processCwd)
        (cloneParentDir options processCwd) with
    | ok out => exact fun r hr => by cases hr; rfl
    | error e => exact fun r hr => Except.noConfusion hr

/-- Sample clone options for the witnesses: the spec's
`localPath = "/work/proj"` example. -/
def sampleCloneOptions : GitCloneOptions :=
  { remoteUrl := "https://example.com/r.git", localPath := "/work/proj",
    branch := none, depth := none, bare := none, mirror := none,
    recurseSubmodules := none }

/-- Witness for C5: cloning to `/work/proj` runs from `/work` with
destination argument `proj` and reports `localPath = "/work/proj"`. -/
theorem clone_parent_cwd_and_destination_witness :
    (((executeClone sampleCloneOptions sampleContext "/cwd" execOkEmpty).2
        = [cloneInv sampleCloneOptions "/cwd"] ∧
      (cloneInv sampleCloneOptions "/cwd").cwd
        = pathDirname (pathResolve "/cwd" "/work/proj") ∧
      (cloneInv sampleCloneOptions "/cwd").args.take 3
        = ["clone", "https://example.com/r.git",
           pathBasename (pathResolve "/cwd" "/work/proj")]) ∧
      ({ success := true, localPath := "/work/proj",
         remoteUrl := "https://example.com/r.git",
         branch := "main" } : GitCloneResult).localPath
        = pathResolve "/cwd" "/work/proj") ∧
    pathDirname (pathResolve "/cwd" "/work/proj") = "/work" ∧
    pathBasename (pathResolve "/cwd" "/work/proj") = "proj" ∧
    pathResolve "/cwd" "/work/proj" = "/work/proj" :=
  ⟨⟨(clone_parent_cwd_and_destination sampleCloneOptions sampleContext
      "/cwd" execOkEmpty).1,
    (clone_parent_cwd_and_destination sampleCloneOptions sampleContext
      "/cwd" execOkEmpty).2 _ (by decide)⟩,
   by decide, by decide, by decide⟩

/-- Clone options with an explicitly empty branch, refuting claim C9 as
stated. -/
def emptyBranchCloneOptions : GitCloneOptions :=
  { remoteUrl := "https://example.com/r.git", localPath := "/work/proj",
    branch := some "", depth := none, bare := none, mirror := none,
    recurseSubmodules := none }

/-- Counterexample to claim C9: a clone call with `branch` provided as the
empty string does not echo it back; the JS falsiness of `""` in
`options.branch || 'main'` makes the result report `"main"` instead. -/
theorem clone_branch_echo_counterexample :
    emptyBranchCloneOptions.branch = some "" ∧
    (executeClone emptyBranchCloneOptions sampleContext "/cwd" execOkEmpty).1
      = Except.ok { success := true, localPath := "/work/proj",
                    remoteUrl := "https://example.com/r.git",
                    branch := "main" } ∧
    ("main" : String) ≠ "" := by decide

/-- Claim C9 (amended): on every successful clone, the returned branch
field is the literal `"main"` whenever `options.branch` is absent or
empty — independent of the cloned repository's actual default branch,
since the field does not depend on the oracle — and a non-empty provided
branch is echoed back unchanged. -/
theorem clone_branch_field (options : GitCloneOptions)
    (context : GitOperationContext) (processCwd : String) (exec : Exec)
    (r : GitCloneResult)
    (hr : (executeClone options context processCwd exec).1 = Except.ok r) :
    r.branch = (match options.branch with
      | some b => if b = "" then "main" else b
      | none => "main") := by
  rw [executeClone_eq] at hr
  cases hx : exec (cloneCmd options processCwd)
      (cloneParentDir options processCwd) with
  | ok out =>
      rw [hx] at hr
      dsimp only at hr
      cases hr
      rfl
  | error e =>
      rw [hx] at hr
      exact Except.noConfusion hr

/-- Witness for the amended C9: a clone without a branch option reports
branch `"main"`. -/
theorem clone_branch_field_witness :
    ({ success := true, localPath := "/work/proj",
       remoteUrl := "https://example.com/r.git",
       branch := "main" } : GitCloneResult).branch
      = (match sampleCloneOptions.branch with
         | some b => if b = "" then "main" else b
         | none => "main") :=
  clone_branch_field sampleCloneOptions sampleContext "/cwd" execOkEmpty _
    (by decide)

/-- Tool input with two path filters, refuting claim C6 as stated. -/
def twoPathsDiffInput : DiffToolInput :=
  { target := none, source := none, paths := some ["a.txt", "b.txt"],
    staged := false, includeUntracked := false, nameOnly := false,
    stat := false, contextLines := 3 }

/-- Counterexample to claim C6: a diff call with two paths does fail
before any subprocess is spawned, but the thrown error is a plain JS
`Error`, not a validation-kind `McpError` with code `InvalidParams` as the
other orchestrators use for validation failures. -/
theorem diff_multi_path_error_kind_counterexample :
    gitDiffLogic twoPathsDiffInput "/repo" "t" execOkEmpty
      = (Except.error (JsError.plainError
          "Multiple paths not yet supported - please specify a single path"),
         []) ∧
    isValidationError (JsError.plainError
      "Multiple paths not yet supported - please specify a single path")
      = false := by decide

/-- Claim C6 (amended): every diff call with two or more entries in
`paths` fails before any subprocess is spawned (the invocation trace is
empty), but with a generic error (a plain JS `Error`), not a
validation-kind error. -/
theorem diff_multi_path_fails_before_subprocess
    (input : DiffToolInput) (targetPath tenantId : String) (exec : Exec)
    (ps : List String) (hp : input.paths = some ps)
    (hlen : 1 < ps.length) :
    gitDiffLogic input targetPath tenantId exec
      = (Except.error (JsError.plainError
          "Multiple paths not yet supported - please specify a single path"),
         []) := by
  have h0 : 0 < ps.length := Nat.lt_trans Nat.zero_lt_one hlen
  unfold gitDiffLogic
  rw [hp]
  dsimp only
  rw [if_pos h0, if_pos hlen]

/-- Witness for the amended C6: the two-path input fails with the plain
error and an empty trace. -/
theorem diff_multi_path_fails_before_subprocess_witness :
    gitDiffLogic twoPathsDiffInput "/repo" "t" execNeverRuns
      = (Except.error (JsError.plainError
          "Multiple paths not yet supported - please specify a single path"),
         []) :=
  diff_multi_path_fails_before_subprocess twoPathsDiffInput "/repo" "t"
    execNeverRuns ["a.txt", "b.txt"] rfl (by decide)

/-- Claim C10: two diff calls whose options differ only in
`includeUntracked` and/or `stat` behave identically — the provider never
reads those fields, so both invocations' argument vectors, the parsed
result and the whole outcome coincide. -/
theorem diff_ignores_includeUntracked_and_stat
    (options : GitDiffOptions) (x y : Option Bool)
    (context : GitOperationContext) (exec : Exec) :
    executeDiff { options with includeUntracked := x, stat := y }
        context exec
      = executeDiff options context exec := by
  cases options
  rfl

/-- Commit options with signing on and the unsigned fallback enabled. -/
def fallbackCommitOptions : GitCommitOptions :=
  { message := "msg", amend := none, allowEmpty := none, noVerify := none,
    author := none, sign := some true, forceUnsignedOnFailure := some true }

/-- Counterexample to claim C2 as stated: with signing enabled and
`forceUnsignedOnFailure = true`, the signed attempt fails, the unsigned
attempt is performed and succeeds, yet the call still fails, because the
follow-up hash read-back (`rev-parse HEAD`) fails; "unsigned attempt
succeeds" alone does not guarantee a successful call. -/
theorem commit_fallback_success_counterexample :
    execSignFailsReadBackFails (unsignedCommitCmd fallbackCommitOptions)
        "/repo" = Except.ok { stdout := "", stderr := "" } ∧
    ({ args := unsignedCommitCmd fallbackCommitOptions,
       cwd := "/repo" } : Invocation)
        ∈ (executeCommit fallbackCommitOptions false sampleContext
            execSignFailsReadBackFails).2 ∧
    (executeCommit fallbackCommitOptions false sampleContext
        execSignFailsReadBackFails).1
      = Except.error (JsError.mcpError JsonRpcErrorCode.InternalError
          "boom") := by decide

/-- Claim C2 (amended): for every commit call with signing enabled (via
`sign` or the process-wide default) and `forceUnsignedOnFailure = true`,
if the signed attempt fails then an unsigned attempt with signing
explicitly disabled is performed, and if that unsigned attempt and the
subsequent hash and metadata read-back invocations succeed, the call
reports success with the resulting commit's hash and parsed metadata. -/
theorem commit_signed_fallback_unsigned (options : GitCommitOptions)
    (signDefault : Bool) (context : GitOperationContext) (exec : Exec)
    (hs : options.sign.getD signDefault = true)
    (hf : options.forceUnsignedOnFailure = some true)
    (e : JsError)
    (hsig : exec (signedCommitCmd options) context.workingDirectory
      = Except.error e) :
    ({ args := unsignedCommitCmd options,
       cwd := context.workingDirectory } : Invocation)
        ∈ (executeCommit options signDefault context exec).2 ∧
    (∀ out hashOut showOut,
      exec (unsignedCommitCmd options) context.workingDirectory
          = Except.ok out →
      exec revParseHeadCmd context.workingDirectory = Except.ok hashOut →
      exec (showMetaCmd (jsTrim hashOut.stdout)) context.workingDirectory
          = Except.ok showOut →
      (executeCommit options signDefault context exec).1
        = Except.ok { success := true, commitHash := jsTrim hashOut.stdout,
                      message := options.message,
                      author := (parseCommitShow GIT_FIELD_DELIMITER
                        GIT_RECORD_DELIMITER showOut.stdout).authorName,
                      timestamp := (parseCommitShow GIT_FIELD_DELIMITER
                        GIT_RECORD_DELIMITER showOut.stdout).timestamp,
                      filesChanged := (parseCommitShow GIT_FIELD_DELIMITER
                        GIT_RECORD_DELIMITER showOut.stdout).filesChanged }) := by
  have hforce : truthyBool options.forceUnsignedOnFailure = true := by
    rw [hf]; rfl
  constructor
  · rw [executeCommit_trace]
    unfold executeCommitRaw
    rw [if_pos hs, hsig]
    dsimp only
    rw [if_pos hforce]
    cases hu : exec (unsignedCommitCmd options) context.workingDirectory with
    | ok out =>
        dsimp only
        obtain ⟨suffix, heq, -⟩ := commitReadBack_trace options context exec
          [{ args := signedCommitCmd options,
             cwd := context.workingDirectory },
           { args := unsignedCommitCmd options,
             cwd := context.workingDirectory }]
        rw [heq]
        exact List.mem_append_left _ (by simp)
    | error e2 => simp
  · intro out hashOut showOut h1 h2 h3
    rw [executeCommit_fst]
    have hraw1 : (executeCommitRaw options signDefault context exec).1
        = Except.ok { success := true, commitHash := jsTrim hashOut.stdout,
                      message := options.message,
                      author := (parseCommitShow GIT_FIELD_DELIMITER
                        GIT_RECORD_DELIMITER showOut.stdout).authorName,
                      timestamp := (parseCommitShow GIT_FIELD_DELIMITER
                        GIT_RECORD_DELIMITER showOut.stdout).timestamp,
                      filesChanged := (parseCommitShow GIT_FIELD_DELIMITER
                        GIT_RECORD_DELIMITER showOut.stdout).filesChanged } := by
      unfold executeCommitRaw
      rw [if_pos hs, hsig]
      dsimp only
      rw [if_pos hforce, h1]
      dsimp only
      unfold commitReadBack
      rw [h2]
      dsimp only
      rw [h3]
    rw [hraw1]

/-- Witness for the amended C2: signed attempt fails under
`execSignFails`, the unsigned retry and both read-backs succeed, and the
call reports success. -/
theorem commit_signed_fallback_unsigned_witness :
    ({ args := unsignedCommitCmd fallbackCommitOptions,
       cwd := "/repo" } : Invocation)
        ∈ (executeCommit fallbackCommitOptions false sampleContext
            execSignFails).2 ∧
    (executeCommit fallbackCommitOptions false sampleContext
        execSignFails).1
      = Except.ok { success := true, commitHash := "", message := "msg",
                    author := "", timestamp := some 0,
                    filesChanged := [] } := by
  have h := commit_signed_fallback_unsigned fallbackCommitOptions false
    sampleContext execSignFails rfl rfl
    (JsError.execFailure 1 "gpg: signing failed") (by decide)
  refine ⟨h.1, ?_⟩
  have h2 := h.2 { stdout := "", stderr := "" } { stdout := "", stderr := "" }
    { stdout := "", stderr := "" } (by decide) (by decide) (by decide)
  rw [h2]
  decide

/-- Claim C3: for every commit call with signing enabled and
`forceUnsignedOnFailure` unset or false, a failing signed attempt makes
the call fail with the signed attempt's mapped error; the trace holds the
failed signed invocation only, so no unsigned retry happens and no commit
is created. -/
theorem commit_signed_no_fallback_fails (options : GitCommitOptions)
    (signDefault : Bool) (context : GitOperationContext) (exec : Exec)
    (hs : options.sign.getD signDefault = true)
    (hf : truthyBool options.forceUnsignedOnFailure = false)
    (e : JsError)
    (hsig : exec (signedCommitCmd options) context.workingDirectory
      = Except.error e) :
    executeCommit options signDefault context exec
      = (Except.error (mapGitError e "commit"),
         [{ args := signedCommitCmd options,
            cwd := context.workingDirectory }]) := by
  have hraw : executeCommitRaw options signDefault context exec
      = (Except.error e,
         [{ args := signedCommitCmd options,
            cwd := context.workingDirectory }]) := by
    unfold executeCommitRaw
    rw [if_pos hs, hsig]
    dsimp only
    rw [if_neg]
    simp [hf]
  unfold executeCommit
  rw [hraw]

/-- Commit options with signing on and no fallback. -/
def noFallbackCommitOptions : GitCommitOptions :=
  { message := "msg", amend := none, allowEmpty := none, noVerify := none,
    author := none, sign := some true, forceUnsignedOnFailure := none }

/-- Witness for C3: a failing signed attempt without the fallback yields
the mapped GPG error and a single-invocation trace. -/
theorem commit_signed_no_fallback_fails_witness :
    executeCommit noFallbackCommitOptions false sampleContext execSignFails
      = (Except.error (mapGitError
          (JsError.execFailure 1 "gpg: signing failed") "commit"),
         [{ args := signedCommitCmd noFallbackCommitOptions,
            cwd := "/repo" }]) :=
  commit_signed_no_fallback_fails noFallbackCommitOptions false
    sampleContext execSignFails rfl rfl
    (JsError.execFailure 1 "gpg: signing failed") (by decide)

/-- Claim C4: for every commit call, at most one terminal write attempt
succeeds — and exactly one whenever the call reports success — and a
successful signed attempt skips the unsigned command entirely (the
unsigned invocation never appears in the trace). -/
theorem commit_write_attempt_invariant (options : GitCommitOptions)
    (signDefault : Bool) (context : GitOperationContext) (exec : Exec) :
    successfulWriteCount exec
        (executeCommit options signDefault context exec).2 ≤ 1 ∧
    (∀ r, (executeCommit options signDefault context exec).1 = Except.ok r →
      successfulWriteCount exec
        (executeCommit options signDefault context exec).2 = 1) ∧
    (∀ out, options.sign.getD signDefault = true →
      exec (signedCommitCmd options) context.workingDirectory
          = Except.ok out →
      ({ args := unsignedCommitCmd options,
         cwd := context.workingDirectory } : Invocation)
        ∉ (executeCommit options signDefault context exec).2) := by
  rw [executeCommit_trace, executeCommit_fst]
  by_cases hsign : options.sign.getD signDefault = true
  · unfold executeCommitRaw
    rw [if_pos hsign]
    cases hsig : exec (signedCommitCmd options) context.workingDirectory with
    | ok out0 =>
        dsimp only
        have hc := commitReadBack_count options context exec
          [{ args := signedCommitCmd options, cwd := context.workingDirectory }]
        have h1 : successfulWriteCount exec
            [{ args := signedCommitCmd options,
               cwd := context.workingDirectory }] = 1 := by
          simp only [signedCommitCmd, buildGitCommand] at hsig
          unfold successfulWriteCount
          simp [isCommitWrite, attemptSucceeded, hsig, signedCommitCmd,
            buildGitCommand]
        refine ⟨?_, ?_, ?_⟩
        · rw [hc, h1]
        · intro r _
          rw [hc, h1]
        · intro out hs2 hx
          obtain ⟨suffix, heq, hw⟩ := commitReadBack_trace options context exec
            [{ args := signedCommitCmd options,
               cwd := context.workingDirectory }]
          rw [heq]
          intro hmem
          rcases List.mem_append.mp hmem with hm | hm
          · simp only [List.mem_singleton] at hm
            exact signedCommitCmd_ne options (congrArg Invocation.args hm).symm
          · have hfalse := hw _ hm
            simp [isCommitWrite, unsignedCommitCmd, buildGitCommand] at hfalse
    | error e =>
        dsimp only
        cases hforce : truthyBool options.forceUnsignedOnFailure with
        | true =>
            rw [if_pos rfl]
            cases hu : exec (unsignedCommitCmd options)
                context.workingDirectory with
            | ok out1 =>
                dsimp only
                have hc := commitReadBack_count options context exec
                  [{ args := signedCommitCmd options,
                     cwd := context.workingDirectory },
                   { args := unsignedCommitCmd options,
                     cwd := context.workingDirectory }]
                have h1 : successfulWriteCount exec
                    [{ args := signedCommitCmd options,
                       cwd := context.workingDirectory },
                     { args := unsignedCommitCmd options,
                       cwd := context.workingDirectory }] = 1 := by
                  simp only [signedCommitCmd, unsignedCommitCmd,
                    buildGitCommand] at hsig hu
                  unfold successfulWriteCount
                  simp [isCommitWrite, attemptSucceeded, hsig, hu,
                    signedCommitCmd, unsignedCommitCmd, buildGitCommand]
                refine ⟨?_, ?_, ?_⟩
                · rw [hc, h1]
                · intro r _
                  rw [hc, h1]
                · intro out hs2 hx
                  exact Except.noConfusion hx
            | error e2 =>
                dsimp only
                have h0 : successfulWriteCount exec
                    [{ args := signedCommitCmd options,
                       cwd := context.workingDirectory },
                     { args := unsignedCommitCmd options,
                       cwd := context.workingDirectory }] = 0 := by
                  simp only [signedCommitCmd, unsignedCommitCmd,
                    buildGitCommand] at hsig hu
                  unfold successfulWriteCount
                  simp [isCommitWrite, attemptSucceeded, hsig, hu,
                    signedCommitCmd, unsignedCommitCmd, buildGitCommand]
                refine ⟨?_, ?_, ?_⟩
                · rw [h0]
                  exact Nat.zero_le 1
                · intro r hr
                  exact Except.noConfusion hr
                · intro out hs2 hx
                  exact Except.noConfusion hx
        | false =>
            rw [if_neg Bool.false_ne_true]
            have h0 : successfulWriteCount exec
                [{ args := signedCommitCmd options,
                   cwd := context.workingDirectory }] = 0 := by
              simp only [signedCommitCmd, buildGitCommand] at hsig
              unfold successfulWriteCount
              simp [isCommitWrite, attemptSucceeded, hsig, signedCommitCmd,
                buildGitCommand]
            refine ⟨?_, ?_, ?_⟩
            · rw [h0]
              exact Nat.zero_le 1
            · intro r hr
              exact Except.noConfusion hr
            · intro out hs2 hx
              exact Except.noConfusion hx
  · unfold executeCommitRaw
    rw [if_neg hsign]
    cases hu : exec (unsignedCommitCmd options) context.workingDirectory with
    | ok out1 =>
        dsimp only
        have hc := commitReadBack_count options context exec
          [{ args := unsignedCommitCmd options,
             cwd := context.workingDirectory }]
        have h1 : successfulWriteCount exec
            [{ args := unsignedCommitCmd options,
               cwd := context.workingDirectory }] = 1 := by
          simp only [unsignedCommitCmd, buildGitCommand] at hu
          unfold successfulWriteCount
          simp [isCommitWrite, attemptSucceeded, hu, unsignedCommitCmd,
            buildGitCommand]
        refine ⟨?_, ?_, ?_⟩
        · rw [hc, h1]
        · intro r _
          rw [hc, h1]
        · intro out hs2 hx
          exact absurd hs2 hsign
    | error e2 =>
        dsimp only
        have h0 : successfulWriteCount exec
            [{ args := unsignedCommitCmd options,
               cwd := context.workingDirectory }] = 0 := by
          simp only [unsignedCommitCmd, buildGitCommand] at hu
          unfold successfulWriteCount
          simp [isCommitWrite, attemptSucceeded, hu, unsignedCommitCmd,
            buildGitCommand]
        refine ⟨?_, ?_, ?_⟩
        · rw [h0]
          exact Nat.zero_le 1
        · intro r hr
          exact Except.noConfusion hr
        · intro out hs2 hx
          exact absurd hs2 hsign

/-- Commit options with signing disabled (no explicit option, default
off). -/
def unsignedCommitOptions : GitCommitOptions :=
  { message := "msg", amend := none, allowEmpty := none, noVerify := none,
    author := none, sign := none, forceUnsignedOnFailure := none }

/-- Witness for C4: a successful unsigned commit call has exactly one
successful terminal write attempt in its trace. -/
theorem commit_write_attempt_invariant_witness :
    successfulWriteCount execOkEmpty
      (executeCommit unsignedCommitOptions false sampleContext
        execOkEmpty).2 = 1 :=
  (commit_write_attempt_invariant unsignedCommitOptions false sampleContext
    execOkEmpty).2.1
    { success := true, commitHash := "", message := "msg", author := "",
      timestamp := some 0, filesChanged := [] } (by decide)

/-- Claim C8: decoding the delimiter-encoded metadata payload of the
commit read-back never crashes (`parseCommitShow` is total) and degrades
gracefully: with the record delimiter absent the changed-files list
defaults to empty, with the field delimiter absent from the first segment
the timestamp defaults to zero, and an empty payload yields the empty
author name, zero timestamp and empty file list. Delimiter absence is
expressed as the corresponding split returning the whole input as its
only segment. -/
theorem commit_metadata_parse_defaults (fieldDelim recordDelim stdout : String) :
    (jsSplit stdout recordDelim = [stdout] →
       (parseCommitShow fieldDelim recordDelim stdout).filesChanged = []) ∧
    (∀ p rest, jsSplit stdout recordDelim = p :: rest →
       jsSplit p fieldDelim = [p] →
       (parseCommitShow fieldDelim recordDelim stdout).timestamp = some 0) ∧
    ((parseCommitShow fieldDelim recordDelim "").authorName = "" ∧
     (parseCommitShow fieldDelim recordDelim "").timestamp = some 0 ∧
     (parseCommitShow fieldDelim recordDelim "").filesChanged = []) := by
  have hzero : jsParseInt10 "0" = some 0 := by decide
  have hsplitEmpty : ∀ sep : String,
      jsSplit "" sep = [""] ∨ jsSplit "" sep = [] := by
    intro sep
    cases h : sep.toList with
    | nil =>
        right
        unfold jsSplit
        rw [h]
        rfl
    | cons c cs =>
        left
        unfold jsSplit
        rw [h]
        rfl
  refine ⟨?_, ?_, ?_⟩
  · intro h
    unfold parseCommitShow
    rw [h]
  · intro p rest h1 h2
    unfold parseCommitShow
    rw [h1]
    dsimp only
    rw [h2]
    exact hzero
  · unfold parseCommitShow
    rcases hsplitEmpty recordDelim with h | h <;> rw [h]
    · dsimp only
      rcases hsplitEmpty fieldDelim with h2 | h2 <;> rw [h2]
      · exact ⟨rfl, hzero, rfl⟩
      · exact ⟨rfl, hzero, rfl⟩
    · exact ⟨rfl, hzero, rfl⟩

/-- Witness for C8: a `git show` payload containing neither delimiter
parses to an empty file list and a zero timestamp. -/
theorem commit_metadata_parse_defaults_witness :
    (parseCommitShow GIT_FIELD_DELIMITER GIT_RECORD_DELIMITER
      "Alice").filesChanged = [] ∧
    (parseCommitShow GIT_FIELD_DELIMITER GIT_RECORD_DELIMITER
      "Alice").timestamp = some 0 :=
  ⟨(commit_metadata_parse_defaults GIT_FIELD_DELIMITER GIT_RECORD_DELIMITER
      "Alice").1 (by decide),
   (commit_metadata_parse_defaults GIT_FIELD_DELIMITER GIT_RECORD_DELIMITER
      "Alice").2.1 "Alice" [] (by decide) (by decide)⟩

end GitMcp
